import Mathlib

/-!
Traffic-light Moore machine (`TrafficLight_Moore/TrafficLight.c`)

Shallow embedding of the state table `Fsm`, the sensor read `SensorIn`, the
lamp write `LightOut` and the `while(1)` loop of `main`.

* `unsigned long` is 32 bits wide on the Cortex-M target; values are `Nat`
  and the arithmetic of `LightOut` is reduced modulo `2 ^ 32`.
* Indexing a C array outside its bounds has no defined result, so every
  table access returns an `Option`.
* The memory-mapped registers are modelled by their values: the value read
  from `GPIO_PORTE_DATA_R` is an argument, the values written to
  `GPIO_PORTB_DATA_R` and `GPIO_PORTF_DATA_R` are results.
* `SysTick_Wait10ms` only consumes time and touches no program variable; it
  does not appear in the state.
-/

namespace TrafficLight

/-! ## Pre-processor constants -/

/-- East open. -/
def EO : Nat := 0
/-- East yellow. -/
def EW : Nat := 1
/-- North open. -/
def NO : Nat := 2
/-- North yellow. -/
def NW : Nat := 3
/-- Peds open. -/
def WO : Nat := 4
/-- Peds first red. -/
def WH1 : Nat := 5
/-- Peds no light. -/
def WC1 : Nat := 6
/-- Peds second red. -/
def WH2 : Nat := 7
/-- Peds no light. -/
def WC2 : Nat := 8
/-- Peds third and last red. -/
def WH3 : Nat := 9
/-- Short dwell, 750 msec in 10 ms ticks. -/
def shortWait : Nat := 75
/-- Long dwell, 3000 msec in 10 ms ticks. -/
def longWait : Nat := 300

/-- Reduction of a value to the 32 bits of an `unsigned long`. -/
def u32 (x : Nat) : Nat := x % 4294967296

/-! ## The state table -/

/-- The C `struct State`: output code, dwell time and the `Next[8]` row. -/
structure State where
  Out : Nat
  Time : Nat
  Next : List Nat
deriving DecidableEq, Repr

/-- The constant table `Fsm[10]`, row by row as in the source. -/
def Fsm : List State :=
  [ ⟨0x31, longWait, [EO, EO, EW, EW, EW, EW, EW, EW]⟩,
    ⟨0x51, shortWait, [NO, NO, NO, NO, WO, WO, WO, NO]⟩,
    ⟨0x85, longWait, [NO, NW, NO, NW, NW, NW, NW, NW]⟩,
    ⟨0x89, shortWait, [EO, EO, EO, EO, WO, WO, WO, WO]⟩,
    ⟨0x92, longWait, [WO, WH1, WH1, WH1, WO, WH1, WH1, WH1]⟩,
    ⟨0x91, shortWait, [WC1, WC1, WC1, WC1, WC1, WC1, WC1, WC1]⟩,
    ⟨0x90, shortWait, [WH2, WH2, WH2, WH2, WH2, WH2, WH2, WH2]⟩,
    ⟨0x91, shortWait, [WC2, WC2, WC2, WC2, WC2, WC2, WC2, WC2]⟩,
    ⟨0x90, shortWait, [WH3, WH3, WH3, WH3, WH3, WH3, WH3, WH3]⟩,
    ⟨0x91, shortWait, [EO, EO, NO, EO, EO, EO, NO, EO]⟩ ]

/-! ## Subroutines -/

/-- The two data registers written by `LightOut`. -/
structure Lights where
  GPIO_PORTB_DATA_R : Nat
  GPIO_PORTF_DATA_R : Nat
deriving DecidableEq, Repr

/-- The routine `LightOut(out)`: Port B receives `Fsm[out].Out >> 2`, Port F
receives `W = ((Out & 0x01) << 1) + ((Out & 0x02) << 2)`. -/
def LightOut (out : Nat) : Option Lights :=
  match Fsm[out]? with
  | none => none
  | some st =>
    let W := u32 (u32 ((st.Out &&& 0x01) <<< 1) + u32 ((st.Out &&& 0x02) <<< 2))
    some ⟨st.Out >>> 2, W⟩

/-- The routine `SensorIn()`, with the value of `GPIO_PORTE_DATA_R` at the
time of the call as argument. -/
def SensorIn (GPIO_PORTE_DATA_R : Nat) : Nat :=
  GPIO_PORTE_DATA_R &&& 0x07

/-- The table lookup `Fsm[CState].Next[Input]`. -/
def nextState (CState Input : Nat) : Option Nat :=
  match Fsm[CState]? with
  | none => none
  | some st => st.Next[Input]?

/-- One pass through the body of `while(1)` in `main`, as far as `CState` is
concerned: `Input = SensorIn(); CState = Fsm[CState].Next[Input];`. The
argument `portE` is the raw value of the sensor port at that pass. -/
def mainIter (CState portE : Nat) : Option Nat :=
  nextState CState (SensorIn portE)

/-- The value of `CState` after `k` passes of the loop of `main` entered with
`CState = s`, where `portE i` is the raw value of the sensor port read during
pass `i` (counted from 0). -/
def mainLoop (s : Nat) (portE : Nat → Nat) : Nat → Option Nat
  | 0 => some s
  | k + 1 =>
    match mainLoop s portE k with
    | none => none
    | some c => mainIter c (portE k)

/-- The lamps lit during pass `k` (counted from 0) of the loop: `LightOut` is
called with the value `CState` has after `k` completed passes. -/
def lightsAt (s : Nat) (portE : Nat → Nat) (k : Nat) : Option Lights :=
  match mainLoop s portE k with
  | none => none
  | some c => LightOut c

/-- A number of passes that suffices to reach `WO` from a state while the
pedestrian detector stays asserted; used as a decreasing measure. -/
def pedRank : Nat → Nat
  | 0 => 4
  | 1 => 3
  | 2 => 2
  | 3 => 1
  | 4 => 0
  | 5 => 9
  | 6 => 8
  | 7 => 7
  | 8 => 6
  | 9 => 5
  | _ => 0

/-! ## Lamp wiring -/

/-- The six vehicle lamps driven from Port B. -/
inductive Lamp where
  | eastRed
  | eastYellow
  | eastGreen
  | northRed
  | northYellow
  | northGreen
deriving DecidableEq, Repr

/-- The wiring stated in the header of the source file: east/west red,
yellow, green on PB5, PB4, PB3 and north/south red, yellow, green on PB2,
PB1, PB0. -/
def headerWiring : Lamp → Nat
  | Lamp.eastRed => 5
  | Lamp.eastYellow => 4
  | Lamp.eastGreen => 3
  | Lamp.northRed => 2
  | Lamp.northYellow => 1
  | Lamp.northGreen => 0

/-- The layout of the 6-bit vehicle value as the specification words it, from
the most significant bit to the least: north-red, north-yellow, north-green,
east-red, east-yellow, east-green. -/
def specVehicleLayout : Lamp → Nat
  | Lamp.northRed => 5
  | Lamp.northYellow => 4
  | Lamp.northGreen => 3
  | Lamp.eastRed => 2
  | Lamp.eastYellow => 1
  | Lamp.eastGreen => 0

/-- Port F pin of the "walk" light (PF3). -/
def walkPin : Nat := 3

/-- Port F pin of the "don't walk" light (PF1). -/
def dontWalkPin : Nat := 1

/-- Whether lamp `l` is lit, under the bit layout `layout`, by the value that
`LightOut s` writes to Port B. -/
def vehicleLit (layout : Lamp → Nat) (s : Nat) (l : Lamp) : Bool :=
  match LightOut s with
  | none => false
  | some p => p.GPIO_PORTB_DATA_R.testBit (layout l)

/-- The lamps among `ls` that are lit in state `s` under the layout. -/
def litAmong (layout : Lamp → Nat) (s : Nat) (ls : List Lamp) : List Lamp :=
  ls.filter (vehicleLit layout s)

/-- The three east/west lamps. -/
def eastLamps : List Lamp := [Lamp.eastRed, Lamp.eastYellow, Lamp.eastGreen]

/-- The three north/south lamps. -/
def northLamps : List Lamp := [Lamp.northRed, Lamp.northYellow, Lamp.northGreen]

/-- Whether the Port F pin `pin` is driven high by `LightOut s`. -/
def pedLit (pin : Nat) (s : Nat) : Bool :=
  match LightOut s with
  | none => false
  | some p => p.GPIO_PORTF_DATA_R.testBit pin

end TrafficLight

/-!
Angle display (`MeasurementOfAngle/MeasurementOfAngle.c`)

Shallow embedding of `Pow` and `UART_ConvertAngle`. The global
`unsigned char String[10]` is a list of byte values passed in and returned;
a store truncates to 8 bits and a store outside the array has no defined
result. The `while` loop is run with a fuel bound on its number of passes.
-/

namespace MeasurementOfAngle

/-- Reduction to the 32 bits of an `unsigned long`. -/
def ulong (x : Nat) : Nat := x % 4294967296

/-- Reduction to the 8 bits of an `unsigned char`. -/
def uchar (x : Nat) : Nat := x % 256

/-- The recursive routine `Pow(k, l)`. -/
def Pow (k : Nat) : Nat → Nat
  | 0 => if k = 0 then 0 else 1
  | l + 1 => if k = 0 then 0 else ulong (k * Pow k l)

/-- The assignment `String[i] = v`. -/
def setString (String : List Nat) (i v : Nat) : Option (List Nat) :=
  if i < String.length then some (String.set i (uchar v)) else none

/-- The variables that the loop of `UART_ConvertAngle` changes: the parameter
`n`, the locals `cnt`, `cnt1`, `dec` and the global `String`. -/
structure Conv where
  n : Nat
  cnt : Nat
  cnt1 : Nat
  dec : Nat
  String : List Nat
deriving DecidableEq

/-- The first statement of the loop body: with `check` set, the digit
`n/Pow(10, 3-cnt1) + 0x30` is stored at `String[cnt]` and `n` is reduced
modulo `Pow(10, 3-cnt1)`; otherwise a star is stored. Division by zero has no
defined result. -/
def convDigit (check : Nat) (st : Conv) : Option Conv :=
  if check ≠ 0 then
    let p := Pow 10 (ulong (3 + 4294967296 - st.cnt1))
    if p = 0 then none
    else
      match setString st.String st.cnt (ulong (st.n / p + 0x30)) with
      | none => none
      | some S => some ⟨st.n % p, st.cnt, st.cnt1, st.dec, S⟩
  else
    match setString st.String st.cnt (Char.toNat '*') with
    | none => none
    | some S => some ⟨st.n, st.cnt, st.cnt1, st.dec, S⟩

/-- The second statement of the loop body: `if(dec == 2){cnt++;
String[cnt] = '.';}`. -/
def convPoint (st : Conv) : Option Conv :=
  if st.dec = 2 then
    match setString st.String (ulong (st.cnt + 1)) (Char.toNat '.') with
    | none => none
    | some S => some ⟨st.n, ulong (st.cnt + 1), st.cnt1, st.dec, S⟩
  else some st

/-- One pass through the body of `while(cnt <= 4)`. -/
def convBody (check : Nat) (st : Conv) : Option Conv :=
  match convDigit check st with
  | none => none
  | some st1 =>
    match convPoint st1 with
    | none => none
    | some st2 =>
      some ⟨st2.n, ulong (st2.cnt + 1), ulong (st2.cnt1 + 1), ulong (st2.dec + 1),
        st2.String⟩

/-- The loop `while(cnt <= 4)`, with at most `fuel` evaluations of its
condition; `none` also when the fuel runs out. -/
def convLoop (check : Nat) : Nat → Conv → Option Conv
  | 0, _ => none
  | fuel + 1, st =>
    if st.cnt ≤ 4 then
      match convBody check st with
      | none => none
      | some st1 => convLoop check fuel st1
    else some st

/-- The routine `UART_ConvertAngle(n)`, started with the array contents
`String`; the result is the array contents on return. -/
def UART_ConvertAngle (fuel : Nat) (n : Nat) (String : List Nat) :
    Option (List Nat) :=
  let check := if n < 10000 then 1 else 0
  match convLoop check fuel ⟨n, 0, 0, 0, String⟩ with
  | none => none
  | some st =>
    match setString st.String st.cnt (Char.toNat ' ') with
    | none => none
    | some S1 =>
      match setString S1 (ulong (st.cnt + 1)) (Char.toNat 'd') with
      | none => none
      | some S2 =>
        match setString S2 (ulong (st.cnt + 2)) (Char.toNat 'e') with
        | none => none
        | some S3 => setString S3 (ulong (st.cnt + 3)) (Char.toNat 'g')

/-- The array `String` as static initialisation leaves it: ten zero bytes. -/
def StringInit : List Nat := List.replicate 10 0

/-- The byte values of the characters of a text. -/
def ascii (t : String) : List Nat := t.toList.map Char.toNat

/-- The fixed format in the words of the routine's header comment: 3 digits,
point, 1 digit, space, units; stars for a value larger than 9999. -/
def fixedFormat (n : Nat) : List Nat :=
  if n < 10000 then
    [0x30 + n / 1000 % 10, 0x30 + n / 100 % 10, 0x30 + n / 10 % 10, Char.toNat '.',
      0x30 + n % 10, Char.toNat ' ', Char.toNat 'd', Char.toNat 'e', Char.toNat 'g']
  else ascii "***.* deg"

end MeasurementOfAngle

namespace TrafficLight

/-! ## Basic facts about the embedding -/

theorem SensorIn_eq_mod (raw : Nat) : SensorIn raw = raw % 8 := by
  unfold SensorIn
  exact Nat.and_pow_two_sub_one_eq_mod raw 3

theorem SensorIn_lt (raw : Nat) : SensorIn raw < 8 := by
  rw [SensorIn_eq_mod]
  exact Nat.mod_lt raw (by decide)

/-- Every entry of the table, read at an in-range state and reading, is an
in-range state. -/
theorem nextState_some_lt (s r : Nat) (hs : s < 10) (hr : r < 8) :
    ∃ t, nextState s r = some t ∧ t < 10 := by
  interval_cases s <;> interval_cases r <;> exact ⟨_, rfl, by decide⟩

/-- The values `LightOut` can place in the Port F register have no bit set
outside positions 1 and 3. -/
theorem testBit_portF_other (w i : Nat) (hw : w = 0 ∨ w = 2 ∨ w = 8 ∨ w = 10)
    (h1 : i ≠ 1) (h3 : i ≠ 3) : w.testBit i = false := by
  by_cases hi : i < 4
  · interval_cases i
    · rcases hw with h | h | h | h <;> subst h <;> decide
    · exact absurd rfl h1
    · rcases hw with h | h | h | h <;> subst h <;> decide
    · exact absurd rfl h3
  · have h16 : w < 2 ^ 4 := by
      rcases hw with h | h | h | h <;> subst h <;> decide
    have hpow : 2 ^ 4 ≤ 2 ^ i := Nat.pow_le_pow_right (by decide) (Nat.le_of_not_lt hi)
    exact Nat.testBit_lt_two_pow (Nat.lt_of_lt_of_le h16 hpow)

/-- While the sensor port reads a value whose low three bits are zero, the
loop entered in `NO` keeps `CState = NO`. -/
theorem mainLoop_NO_idle (portE : Nat → Nat) (n : Nat)
    (h0 : ∀ i, i < n → portE i % 8 = 0) :
    ∀ k, k ≤ n → mainLoop NO portE k = some NO := by
  intro k
  induction k with
  | zero => intro _; rfl
  | succ k ih =>
    intro hk
    have hprev := ih (Nat.le_of_succ_le hk)
    have hr := h0 k (Nat.lt_of_succ_le hk)
    simp only [mainLoop, hprev, mainIter, SensorIn_eq_mod, hr]
    rfl

/-- In the four states `WH1`, `WC1`, `WH2`, `WC2` a pass of the loop moves to
the following flash state whatever the sensor port holds. -/
theorem mainIter_flash (raw : Nat) :
    mainIter WH1 raw = some WC1 ∧ mainIter WC1 raw = some WH2 ∧
      mainIter WH2 raw = some WC2 ∧ mainIter WC2 raw = some WH3 := by
  have h := SensorIn_lt raw
  unfold mainIter
  generalize SensorIn raw = r at h
  interval_cases r <;> decide

/-- With the pedestrian bit set in the raw port value, a pass of the loop
started in an in-range state other than `WO` ends in an in-range state of
smaller `pedRank`. -/
theorem mainIter_pedRank_lt (s raw : Nat) (hs : s < 10) (hne : s ≠ WO)
    (hped : raw.testBit 2 = true) :
    ∃ t, mainIter s raw = some t ∧ t < 10 ∧ pedRank t < pedRank s := by
  have hlt : raw % 8 < 8 := Nat.mod_lt raw (by decide)
  have hbit : (raw % 8).testBit 2 = true := by
    have h := Nat.testBit_mod_two_pow raw 3 2
    simpa [hped] using h
  simp only [mainIter, SensorIn_eq_mod]
  generalize raw % 8 = r at hlt hbit
  interval_cases r
  · exact absurd hbit (by decide)
  · exact absurd hbit (by decide)
  · exact absurd hbit (by decide)
  · exact absurd hbit (by decide)
  all_goals
    interval_cases s
    all_goals first
      | exact absurd rfl hne
      | exact ⟨_, rfl, by decide, by decide⟩

/-- While the pedestrian bit stays set, after `k` passes the loop either has
already been in `WO` or sits in a state whose `pedRank` has dropped by at
least `k`. -/
theorem mainLoop_pedRank (s : Nat) (hs : s < 10) (portE : Nat → Nat)
    (hped : ∀ i, (portE i).testBit 2 = true) (k : Nat) :
    (∃ j, j ≤ k ∧ mainLoop s portE j = some WO) ∨
      (∃ c, mainLoop s portE k = some c ∧ c < 10 ∧ pedRank c + k ≤ pedRank s) := by
  induction k with
  | zero => exact Or.inr ⟨s, rfl, hs, Nat.le_refl _⟩
  | succ k ih =>
    rcases ih with ⟨j, hj, hWO⟩ | ⟨c, hc, hc10, hrank⟩
    · exact Or.inl ⟨j, Nat.le_succ_of_le hj, hWO⟩
    · by_cases hcw : c = WO
      · exact Or.inl ⟨k, Nat.le_succ k, hcw ▸ hc⟩
      · obtain ⟨t, ht, ht10, hlt⟩ := mainIter_pedRank_lt c (portE k) hc10 hcw (hped k)
        refine Or.inr ⟨t, ?_, ht10, by omega⟩
        simp only [mainLoop, hc]
        exact ht

/-- While the pedestrian bit stays set, the loop is in `WO` after at most
`pedRank s` passes. -/
theorem mainLoop_reaches_WO (s : Nat) (hs : s < 10) (portE : Nat → Nat)
    (hped : ∀ i, (portE i).testBit 2 = true) :
    ∃ k, k ≤ pedRank s ∧ mainLoop s portE k = some WO := by
  rcases mainLoop_pedRank s hs portE hped (pedRank s) with h | ⟨c, hc, hc10, hrank⟩
  · exact h
  · have h0 : pedRank c = 0 := by omega
    have hcw : c = WO := by
      interval_cases c <;> first | rfl | exact absurd h0 (by decide)
    exact ⟨pedRank s, Nat.le_refl _, hcw ▸ hc⟩

theorem pedRank_le (s : Nat) : pedRank s ≤ 9 := by
  unfold pedRank
  split <;> decide

/-! ## Claims on the table, the masking and the output encoding -/

/-- C1: totality of the transition table. For every state id `s` in 0..9 and
every sensor reading `r` in 0..7 the table has a row for `s`, the row has
exactly 8 entries, and `Fsm[s].Next[r]` is a state id in 0..9; hence the
assignment `CState = Fsm[CState].Next[Input]` of `main` yields a state id in
0..9 for any raw port value. -/
theorem C1_transition_table_total (s r : Nat) (hs : s < 10) (hr : r < 8) :
    Fsm.length = 10 ∧
    (∃ st, Fsm[s]? = some st ∧ st.Next.length = 8 ∧
      ∃ t, st.Next[r]? = some t ∧ t < 10) ∧
    (∃ t, nextState s r = some t ∧ t < 10) ∧
    (∀ portE, ∃ t, mainIter s portE = some t ∧ t < 10) := by
  refine ⟨rfl, ?_, nextState_some_lt s r hs hr, ?_⟩
  · interval_cases s <;> interval_cases r <;>
      exact ⟨_, rfl, rfl, _, rfl, by decide⟩
  · intro portE
    exact nextState_some_lt s (SensorIn portE) hs (SensorIn_lt portE)

theorem C1_transition_table_total_witness :
    (NW < 10 ∧ 5 < 8) ∧ (∃ t, nextState NW 5 = some t ∧ t < 10) ∧
      (∀ portE, ∃ t, mainIter NW portE = some t ∧ t < 10) :=
  ⟨⟨by decide, by decide⟩,
    (C1_transition_table_total NW 5 (by decide) (by decide)).2.2⟩

/-- C2: masking. For every raw value of the sensor port (in particular every
32-bit one) `SensorIn` returns the value ANDed with `0x07`, which is below 8
and equals the low three bits of the raw value; for every state `s` in 0..9
the pass of the loop fed the raw value reaches the same, in-range, next state
as the pass fed its low three bits, which is the table entry at those bits;
raw `0xFA` gives the same next state as `0x02`. -/
theorem C2_sensor_masking (s raw : Nat) (hs : s < 10) :
    SensorIn raw = raw &&& 0x07 ∧ SensorIn raw < 8 ∧ SensorIn raw = raw % 8 ∧
    (∃ t, t < 10 ∧ mainIter s raw = some t ∧ mainIter s (raw % 8) = some t ∧
      nextState s (raw % 8) = some t) ∧
    SensorIn 0xFA = 0x02 ∧ mainIter s 0xFA = mainIter s 0x02 := by
  refine ⟨rfl, SensorIn_lt raw, SensorIn_eq_mod raw, ?_, by decide, ?_⟩
  · obtain ⟨t, ht, hlt⟩ := nextState_some_lt s (raw % 8) hs (Nat.mod_lt raw (by decide))
    refine ⟨t, hlt, ?_, ?_, ht⟩
    · simp only [mainIter, SensorIn_eq_mod]
      exact ht
    · simp only [mainIter, SensorIn_eq_mod, Nat.mod_mod]
      exact ht
  · interval_cases s <;> rfl

theorem C2_sensor_masking_witness :
    EW < 10 ∧ SensorIn 0xFFFFFFFC = 4 ∧ mainIter EW 0xFFFFFFFC = some WO ∧
      mainIter EW 4 = some WO ∧ mainIter EW 0xFA = mainIter EW 0x02 :=
  have h := C2_sensor_masking EW 0xFFFFFFFC (by decide)
  ⟨by decide, h.2.2.1, by decide, by decide, h.2.2.2.2.2⟩

/-- C3: output encoding. For every state id `s` in 0..9, `LightOut s` writes
`Fsm[s].Out >> 2` to Port B, a value below `2 ^ 6`, and writes to Port F a
value whose bit 1 is bit 0 of `Fsm[s].Out`, whose bit 3 is bit 1 of
`Fsm[s].Out` and whose other bits are all 0. For `EO` (output code `0x31`)
Port B receives `0x0C` and Port F receives `0x02`, which is not `0x01`. -/
theorem C3_output_encoding (s : Nat) (hs : s < 10) :
    (∃ st p, Fsm[s]? = some st ∧ LightOut s = some p ∧
      p.GPIO_PORTB_DATA_R = st.Out >>> 2 ∧ p.GPIO_PORTB_DATA_R < 2 ^ 6 ∧
      p.GPIO_PORTF_DATA_R.testBit 1 = st.Out.testBit 0 ∧
      p.GPIO_PORTF_DATA_R.testBit 3 = st.Out.testBit 1 ∧
      ∀ i, i ≠ 1 → i ≠ 3 → p.GPIO_PORTF_DATA_R.testBit i = false) ∧
    (∃ st, Fsm[EO]? = some st ∧ st.Out = 0x31) ∧
    LightOut EO = some ⟨0x0C, 0x02⟩ ∧ LightOut EO ≠ some ⟨0x0C, 0x01⟩ := by
  refine ⟨?_, ⟨_, rfl, rfl⟩, by decide, by decide⟩
  interval_cases s <;>
    refine ⟨_, _, rfl, rfl, rfl, by decide, by decide, by decide, ?_⟩ <;>
    intro i h1 h3 <;>
    refine testBit_portF_other _ i ?_ h1 h3 <;>
    decide

theorem C3_output_encoding_witness :
    WO < 10 ∧ LightOut WO = some ⟨0x24, 0x08⟩ ∧ LightOut EO = some ⟨0x0C, 0x02⟩ :=
  ⟨by decide, by decide, (C3_output_encoding WO (by decide)).2.2.1⟩

/-- C4: a vehicle-open state holds until a competing request and is left only
through its own yellow state. From `NO` the next state is `NO` exactly for the
readings with neither the east-car bit (bit 0) nor the pedestrian bit (bit 2)
set, which are 0 and 2, and `NW` for every other reading (so reading 1 gives
`NW`); from `EO` the next state is `EO` exactly for the readings with neither
the north-car bit (bit 1) nor the pedestrian bit set, which are 0 and 1, and
`EW` for every other reading. Entered in `NO`, for every `n` and every run of
`n` raw port values whose low three bits are all 0, the loop has
`CState = NO` after each of the `n` passes. -/
theorem C4_vehicle_open_holds (r : Nat) (hr : r < 8) (portE : Nat → Nat) (n : Nat)
    (h0 : ∀ i, i < n → portE i % 8 = 0) :
    ((r.testBit 0 = false ∧ r.testBit 2 = false) ↔ (r = 0 ∨ r = 2)) ∧
    nextState NO r =
      some (if r.testBit 0 = false ∧ r.testBit 2 = false then NO else NW) ∧
    nextState NO 1 = some NW ∧
    ((r.testBit 1 = false ∧ r.testBit 2 = false) ↔ (r = 0 ∨ r = 1)) ∧
    nextState EO r =
      some (if r.testBit 1 = false ∧ r.testBit 2 = false then EO else EW) ∧
    (∀ k, k ≤ n → mainLoop NO portE k = some NO) := by
  refine ⟨?_, ?_, rfl, ?_, ?_, mainLoop_NO_idle portE n h0⟩ <;>
    interval_cases r <;> decide

theorem C4_vehicle_open_holds_witness :
    (5 < 8 ∧ ∀ i, i < 3 → (fun j => 8 * j) i % 8 = 0) ∧
      nextState NO 5 = some NW ∧ nextState EO 5 = some EW ∧
      mainLoop NO (fun j => 8 * j) 3 = some NO :=
  have h := C4_vehicle_open_holds 5 (by decide) (fun j => 8 * j) 3
    (fun i _ => Nat.mul_mod_right 8 i)
  ⟨⟨by decide, fun i _ => Nat.mul_mod_right 8 i⟩, h.2.1, h.2.2.2.2.1,
    h.2.2.2.2.2 3 (Nat.le_refl 3)⟩

/-! ## Claims on individual rows of the table -/

/-- C5 fails as stated: with reading 4 the next state from `EO` is `EW` and the
next state from `NO` is `NW`, neither is `WO`. -/
theorem C5_counterexample :
    nextState EO 4 = some EW ∧ nextState NO 4 = some NW ∧
      ¬ (nextState EO 4 = some WO) ∧ ¬ (nextState NO 4 = some WO) := by
  decide

/-- C5, amended: from `EO` and from `NO` the reading 4 (pedestrian bit set, no
vehicle bit set) makes the state's own yellow state (`EW`, respectively `NW`)
the next state, and from that yellow state the reading 4 makes `WO` the next
state; so the loop entered in `EO` or in `NO` is in `WO` after two passes
whose port values have low three bits 4. -/
theorem C5_ped_request_via_yellow (portE : Nat → Nat)
    (h0 : portE 0 % 8 = 4) (h1 : portE 1 % 8 = 4) :
    nextState EO 4 = some EW ∧ nextState EW 4 = some WO ∧
    nextState NO 4 = some NW ∧ nextState NW 4 = some WO ∧
    mainLoop EO portE 1 = some EW ∧ mainLoop EO portE 2 = some WO ∧
    mainLoop NO portE 1 = some NW ∧ mainLoop NO portE 2 = some WO := by
  refine ⟨rfl, rfl, rfl, rfl, ?_, ?_, ?_, ?_⟩ <;>
    simp only [mainLoop, mainIter, SensorIn_eq_mod, h0, h1] <;> rfl

theorem C5_ped_request_via_yellow_witness :
    ((fun _ => 0xF4) 0 % 8 = 4 ∧ (fun _ => 0xF4) 1 % 8 = 4) ∧
      mainLoop EO (fun _ => 0xF4) 2 = some WO ∧
      mainLoop NO (fun _ => 0xF4) 2 = some WO :=
  have h := C5_ped_request_via_yellow (fun _ => 0xF4) (by decide) (by decide)
  ⟨⟨by decide, by decide⟩, h.2.2.2.2.2.1, h.2.2.2.2.2.2.2⟩

/-- C6 fails as stated: with reading 0, and with reading 4, the next state from
`WO` is `WO` itself, not `WH1`. -/
theorem C6_counterexample :
    nextState WO 0 = some WO ∧ nextState WO 4 = some WO ∧
      ¬ (nextState WO 0 = some WH1) ∧ ¬ (nextState WO 4 = some WH1) := by
  decide

/-- C6, amended: for every sensor reading `r` in 0..7 with at least one car bit
(bit 0 or bit 1) set, the next state from `WO` is `WH1`; for the two readings
with no car bit set, 0 and 4, the next state from `WO` is `WO`. -/
theorem C6_ped_open_row (r : Nat) (hr : r < 8) :
    ((r.testBit 0 = false ∧ r.testBit 1 = false) ↔ (r = 0 ∨ r = 4)) ∧
    nextState WO r =
      some (if r.testBit 0 = false ∧ r.testBit 1 = false then WO else WH1) := by
  constructor <;> interval_cases r <;> decide

theorem C6_ped_open_row_witness :
    6 < 8 ∧ nextState WO 6 = some WH1 :=
  ⟨by decide, (C6_ped_open_row 6 (by decide)).2⟩

/-- C7 fails as stated: reading 4 has the pedestrian bit set and reading 5 has
bit 0 set, yet the next state from `NW` is `WO` for both, not `EO`. -/
theorem C7_counterexample :
    Nat.testBit 4 2 = true ∧ Nat.testBit 5 0 = true ∧
      nextState NW 4 = some WO ∧ nextState NW 5 = some WO ∧
      ¬ (nextState NW 4 = some EO) ∧ ¬ (nextState NW 5 = some EO) := by
  decide

/-- C7, amended: from `NW`, every sensor reading in 0..7 with the pedestrian
bit (bit 2) clear, whether or not bit 0 is set, makes `EO` the next state, and
every reading with the pedestrian bit set makes `WO` the next state. -/
theorem C7_north_yellow_row (r : Nat) (hr : r < 8) :
    nextState NW r = some (if r.testBit 2 = true then WO else EO) := by
  interval_cases r <;> decide

theorem C7_north_yellow_row_witness :
    (1 < 8 ∧ 7 < 8) ∧ nextState NW 1 = some EO ∧ nextState NW 7 = some WO :=
  ⟨⟨by decide, by decide⟩, C7_north_yellow_row 1 (by decide),
    C7_north_yellow_row 7 (by decide)⟩

/-! ## Claims on the pedestrian phases and on reachability -/

/-- C8: the flashing sequence is not sensor-interruptible. For every run of
raw port values, the loop entered in `WH1` is in `WC1`, `WH2`, `WC2`, `WH3`
after 1, 2, 3, 4 passes. In `WH1`, `WC1`, `WH2`, `WC2`, `WH3` the value written
to Port B is `0x24`, the value written in `WO`; the value written to Port F is
`0x02` in the three red states and `0x00` in the two off states. -/
theorem C8_flash_sequence (portE : Nat → Nat) :
    mainLoop WH1 portE 1 = some WC1 ∧ mainLoop WH1 portE 2 = some WH2 ∧
    mainLoop WH1 portE 3 = some WC2 ∧ mainLoop WH1 portE 4 = some WH3 ∧
    (∃ f, LightOut WO = some ⟨0x24, f⟩) ∧
    LightOut WH1 = some ⟨0x24, 0x02⟩ ∧ LightOut WC1 = some ⟨0x24, 0x00⟩ ∧
    LightOut WH2 = some ⟨0x24, 0x02⟩ ∧ LightOut WC2 = some ⟨0x24, 0x00⟩ ∧
    LightOut WH3 = some ⟨0x24, 0x02⟩ ∧
    lightsAt WH1 portE 0 = some ⟨0x24, 0x02⟩ ∧
    lightsAt WH1 portE 1 = some ⟨0x24, 0x00⟩ ∧
    lightsAt WH1 portE 2 = some ⟨0x24, 0x02⟩ ∧
    lightsAt WH1 portE 3 = some ⟨0x24, 0x00⟩ ∧
    lightsAt WH1 portE 4 = some ⟨0x24, 0x02⟩ := by
  have h1 : mainLoop WH1 portE 1 = some WC1 := by
    simp only [mainLoop]
    exact (mainIter_flash (portE 0)).1
  have h2 : mainLoop WH1 portE 2 = some WH2 := by
    rw [mainLoop, h1]
    exact (mainIter_flash (portE 1)).2.1
  have h3 : mainLoop WH1 portE 3 = some WC2 := by
    rw [mainLoop, h2]
    exact (mainIter_flash (portE 2)).2.2.1
  have h4 : mainLoop WH1 portE 4 = some WH3 := by
    rw [mainLoop, h3]
    exact (mainIter_flash (portE 3)).2.2.2
  refine ⟨h1, h2, h3, h4, ⟨0x08, by decide⟩, by decide, by decide, by decide,
    by decide, by decide, rfl, ?_, ?_, ?_, ?_⟩
  · simp only [lightsAt, h1]; decide
  · simp only [lightsAt, h2]; decide
  · simp only [lightsAt, h3]; decide
  · simp only [lightsAt, h4]; decide

/-- C9 fails as stated: readings 0 and 4 have neither car bit set, and the
next state from `WH3` is `EO` for both, not `NO`. -/
theorem C9_counterexample :
    (Nat.testBit 0 0 = false ∧ Nat.testBit 0 1 = false) ∧
      (Nat.testBit 4 0 = false ∧ Nat.testBit 4 1 = false) ∧
      nextState WH3 0 = some EO ∧ nextState WH3 4 = some EO ∧
      ¬ (nextState WH3 0 = some NO) ∧ ¬ (nextState WH3 4 = some NO) := by
  decide

/-- C9, amended: from `WH3` the next state is always `EO` or `NO`; it is `EO`
when the east-car bit (bit 0) is set and the north-car bit (bit 1) is clear,
`NO` when the north-car bit is set and the east-car bit is clear, and `EO`
when neither car bit is set (readings 0 and 4). Altogether the next state is
`NO` exactly when the north-car bit alone of the two car bits is set. -/
theorem C9_terminal_flash_row (r : Nat) (hr : r < 8) :
    (nextState WH3 r = some EO ∨ nextState WH3 r = some NO) ∧
    (r.testBit 0 = true ∧ r.testBit 1 = false → nextState WH3 r = some EO) ∧
    (r.testBit 1 = true ∧ r.testBit 0 = false → nextState WH3 r = some NO) ∧
    (r.testBit 0 = false ∧ r.testBit 1 = false →
      (r = 0 ∨ r = 4) ∧ nextState WH3 r = some EO) ∧
    nextState WH3 r =
      some (if r.testBit 1 = true ∧ r.testBit 0 = false then NO else EO) := by
  interval_cases r <;> decide

theorem C9_terminal_flash_row_witness :
    (6 < 8 ∧ 4 < 8) ∧ nextState WH3 6 = some NO ∧ nextState WH3 4 = some EO :=
  ⟨⟨by decide, by decide⟩, (C9_terminal_flash_row 6 (by decide)).2.2.2.2,
    (C9_terminal_flash_row 4 (by decide)).2.2.2.2⟩

/-- C10: `WO` is reachable whenever the pedestrian bit is set. For every start
state `s` in 0..9 and every run of raw port values that all have bit 2 set,
there is a number `k ≤ 9` of passes after which the loop is in `WO` (for the
start state `WO` itself this is `k = 0`); when the start state is `EO` or `NO`
that `k` is at most 4. -/
theorem C10_ped_open_reachable (s : Nat) (hs : s < 10) (portE : Nat → Nat)
    (hped : ∀ i, (portE i).testBit 2 = true) :
    ∃ k, k ≤ 9 ∧ mainLoop s portE k = some WO ∧ (s = EO ∨ s = NO → k ≤ 4) := by
  obtain ⟨k, hk, hWO⟩ := mainLoop_reaches_WO s hs portE hped
  refine ⟨k, Nat.le_trans hk (pedRank_le s), hWO, ?_⟩
  rintro (h | h) <;> subst h
  · exact hk
  · exact Nat.le_trans hk (by decide)

theorem C10_ped_open_reachable_witness :
    (WH1 < 10 ∧ ∀ i, ((fun _ => 7 : Nat → Nat) i).testBit 2 = true) ∧
      ∃ k, k ≤ 9 ∧ mainLoop WH1 (fun _ => 7) k = some WO ∧
        (WH1 = EO ∨ WH1 = NO → k ≤ 4) :=
  ⟨⟨by decide, fun _ => (by decide : Nat.testBit 7 2 = true)⟩,
    C10_ped_open_reachable WH1 (by decide) (fun _ => 7)
      (fun _ => (by decide : Nat.testBit 7 2 = true))⟩

/-! ## Claims on the lamp wiring -/

/-- C11 fails as stated: read with the layout of the specification (north in
the three high bits, east in the three low bits) the value written in `EO`
lights east-red and north-green; east-green and north-red are dark. -/
theorem C11_counterexample :
    litAmong specVehicleLayout EO (eastLamps ++ northLamps) =
        [Lamp.eastRed, Lamp.northGreen] ∧
      vehicleLit specVehicleLayout EO Lamp.eastGreen = false ∧
      vehicleLit specVehicleLayout EO Lamp.northRed = false ∧
      ¬ (∀ l, vehicleLit specVehicleLayout EO l =
          decide (l = Lamp.eastGreen ∨ l = Lamp.northRed)) := by
  refine ⟨by decide, by decide, by decide, fun h => ?_⟩
  exact absurd (h Lamp.eastGreen) (by decide)

/-- C11, amended: reading the 6-bit vehicle value written by `LightOut` with
the layout of the file header, from the most significant bit to the least
east-red, east-yellow, east-green, north-red, north-yellow, north-green
(PB5..PB0), state `EO` lights exactly east-green and north-red, `EW` exactly
east-yellow and north-red, `NO` exactly north-green and east-red, and `NW`
exactly north-yellow and east-red. The values written are `0x0C`, `0x14`,
`0x21`, `0x22`. -/
theorem C11_vehicle_bit_layout (l : Lamp) :
    [Lamp.eastRed, Lamp.eastYellow, Lamp.eastGreen, Lamp.northRed, Lamp.northYellow,
        Lamp.northGreen].map headerWiring = [5, 4, 3, 2, 1, 0] ∧
    (LightOut EO).map Lights.GPIO_PORTB_DATA_R = some 0x0C ∧
    (LightOut EW).map Lights.GPIO_PORTB_DATA_R = some 0x14 ∧
    (LightOut NO).map Lights.GPIO_PORTB_DATA_R = some 0x21 ∧
    (LightOut NW).map Lights.GPIO_PORTB_DATA_R = some 0x22 ∧
    vehicleLit headerWiring EO l = decide (l = Lamp.eastGreen ∨ l = Lamp.northRed) ∧
    vehicleLit headerWiring EW l = decide (l = Lamp.eastYellow ∨ l = Lamp.northRed) ∧
    vehicleLit headerWiring NO l = decide (l = Lamp.northGreen ∨ l = Lamp.eastRed) ∧
    vehicleLit headerWiring NW l = decide (l = Lamp.northYellow ∨ l = Lamp.eastRed) := by
  cases l <;> decide

/-- C13: lamp safety invariant. With the wiring of the file header (Port B
bits 5, 4, 3 east red, yellow, green; bits 2, 1, 0 north red, yellow, green;
Port F bit 3 walk, bit 1 don't walk), in each of the 10 states `LightOut`
writes values such that exactly one east lamp and exactly one north lamp is
lit, at least one direction shows red, no direction pair shows green or yellow
on both sides, walk is lit only when both directions show red, and walk and
don't-walk are never lit together. -/
theorem C13_lamp_safety (s : Nat) (hs : s < 10) :
    (∃ p, LightOut s = some p) ∧
    (litAmong headerWiring s eastLamps).length = 1 ∧
    (litAmong headerWiring s northLamps).length = 1 ∧
    (vehicleLit headerWiring s Lamp.eastRed = true ∨
      vehicleLit headerWiring s Lamp.northRed = true) ∧
    ¬ ((vehicleLit headerWiring s Lamp.eastGreen = true ∨
          vehicleLit headerWiring s Lamp.eastYellow = true) ∧
        (vehicleLit headerWiring s Lamp.northGreen = true ∨
          vehicleLit headerWiring s Lamp.northYellow = true)) ∧
    (pedLit walkPin s = true →
      vehicleLit headerWiring s Lamp.eastRed = true ∧
        vehicleLit headerWiring s Lamp.northRed = true) ∧
    ¬ (pedLit walkPin s = true ∧ pedLit dontWalkPin s = true) := by
  interval_cases s <;> exact ⟨⟨_, rfl⟩, by decide⟩

theorem C13_lamp_safety_witness :
    WO < 10 ∧ pedLit walkPin WO = true ∧
      vehicleLit headerWiring WO Lamp.eastRed = true ∧
      vehicleLit headerWiring WO Lamp.northRed = true :=
  ⟨by decide, by decide,
    (C13_lamp_safety WO (by decide)).2.2.2.2.2.1 (by decide)⟩

end TrafficLight

namespace MeasurementOfAngle

/-! ## Facts about the loop of `UART_ConvertAngle` -/

/-- A list of length 10 is a list of ten named elements. -/
theorem length_ten (l : List Nat) (h : l.length = 10) :
    ∃ s0 s1 s2 s3 s4 s5 s6 s7 s8 s9, l = [s0, s1, s2, s3, s4, s5, s6, s7, s8, s9] := by
  match l, h with
  | [s0, s1, s2, s3, s4, s5, s6, s7, s8, s9], _ =>
    exact ⟨s0, s1, s2, s3, s4, s5, s6, s7, s8, s9, rfl⟩

/-- A store inside the array replaces that element by the value truncated to
8 bits. -/
theorem setString_at (S : List Nat) (i v : Nat) (h : i < S.length) :
    setString S i v = some (S.set i (v % 256)) := by
  rw [setString, if_pos h, uchar]

/-- With `check` set, a non-zero power and `cnt` inside the array, the first
statement of the loop body stores the digit and reduces `n`. -/
theorem convDigit_check (st : Conv) (p : Nat) (hp : Pow 10 (ulong (3 + 4294967296 - st.cnt1)) = p)
    (hp0 : p ≠ 0) (hc : st.cnt < st.String.length) :
    convDigit 1 st =
      some ⟨st.n % p, st.cnt, st.cnt1, st.dec,
        st.String.set st.cnt ((st.n / p + 0x30) % 4294967296 % 256)⟩ := by
  rw [convDigit, if_pos (by decide), hp, if_neg hp0, ulong, setString_at _ _ _ hc]

/-- With `check` clear and `cnt` inside the array, the first statement of the
loop body stores a star. -/
theorem convDigit_star (st : Conv) (hc : st.cnt < st.String.length) :
    convDigit 0 st = some ⟨st.n, st.cnt, st.cnt1, st.dec, st.String.set st.cnt 0x2A⟩ := by
  rw [convDigit, if_neg (by decide), setString_at _ _ _ hc]
  rfl

/-- With `dec = 2` the second statement advances `cnt` and stores the point. -/
theorem convPoint_at (st : Conv) (h2 : st.dec = 2) (hc : (st.cnt + 1) % 4294967296 < st.String.length) :
    convPoint st =
      some ⟨st.n, (st.cnt + 1) % 4294967296, st.cnt1, st.dec,
        st.String.set ((st.cnt + 1) % 4294967296) 0x2E⟩ := by
  rw [convPoint, if_pos h2, ulong, setString_at _ _ _ hc]
  rfl

/-- With `dec` other than 2 the second statement changes nothing. -/
theorem convPoint_skip (st : Conv) (h2 : st.dec ≠ 2) : convPoint st = some st := by
  rw [convPoint, if_neg h2]

/-- The loop body is its two statements followed by the three increments. -/
theorem convBody_of (check : Nat) (st st1 st2 : Conv) (h1 : convDigit check st = some st1)
    (h2 : convPoint st1 = some st2) :
    convBody check st =
      some ⟨st2.n, (st2.cnt + 1) % 4294967296, (st2.cnt1 + 1) % 4294967296,
        (st2.dec + 1) % 4294967296, st2.String⟩ := by
  simp only [convBody, h1, h2, ulong]


/-- The four powers of ten that the loop asks for. -/
theorem Pow_ten :
    Pow 10 (ulong (3 + 4294967296 - 0)) = 1000 ∧ Pow 10 (ulong (3 + 4294967296 - 1)) = 100 ∧
      Pow 10 (ulong (3 + 4294967296 - 2)) = 10 ∧ Pow 10 (ulong (3 + 4294967296 - 3)) = 1 := by
  decide

theorem convBody_pass0 (n s0 s1 s2 s3 s4 s5 s6 s7 s8 s9 : Nat) :
    convBody 1 ⟨n, 0, 0, 0, [s0, s1, s2, s3, s4, s5, s6, s7, s8, s9]⟩ =
      some ⟨n % 1000, 1, 1, 1,
        [(n / 1000 + 0x30) % 4294967296 % 256, s1, s2, s3, s4, s5, s6, s7, s8, s9]⟩ :=
  convBody_of 1 _ _ _
    (convDigit_check ⟨n, 0, 0, 0, [s0, s1, s2, s3, s4, s5, s6, s7, s8, s9]⟩ 1000
      Pow_ten.1 (by decide) (Nat.succ_pos 9))
    (convPoint_skip _ (show (0 : Nat) ≠ 2 by decide))

theorem convBody_pass1 (n s0 s1 s2 s3 s4 s5 s6 s7 s8 s9 : Nat) :
    convBody 1 ⟨n, 1, 1, 1, [s0, s1, s2, s3, s4, s5, s6, s7, s8, s9]⟩ =
      some ⟨n % 100, 2, 2, 2,
        [s0, (n / 100 + 0x30) % 4294967296 % 256, s2, s3, s4, s5, s6, s7, s8, s9]⟩ :=
  convBody_of 1 _ _ _
    (convDigit_check ⟨n, 1, 1, 1, [s0, s1, s2, s3, s4, s5, s6, s7, s8, s9]⟩ 100
      Pow_ten.2.1 (by decide) (show 1 < 10 by decide))
    (convPoint_skip _ (show (1 : Nat) ≠ 2 by decide))

theorem convBody_pass2 (n s0 s1 s2 s3 s4 s5 s6 s7 s8 s9 : Nat) :
    convBody 1 ⟨n, 2, 2, 2, [s0, s1, s2, s3, s4, s5, s6, s7, s8, s9]⟩ =
      some ⟨n % 10, 4, 3, 3,
        [s0, s1, (n / 10 + 0x30) % 4294967296 % 256, 0x2E, s4, s5, s6, s7, s8, s9]⟩ :=
  convBody_of 1 _ _ _
    (convDigit_check ⟨n, 2, 2, 2, [s0, s1, s2, s3, s4, s5, s6, s7, s8, s9]⟩ 10
      Pow_ten.2.2.1 (by decide) (show 2 < 10 by decide))
    (convPoint_at _ (show (2 : Nat) = 2 from rfl) (show 3 < 10 by decide))

theorem convBody_pass3 (n s0 s1 s2 s3 s4 s5 s6 s7 s8 s9 : Nat) :
    convBody 1 ⟨n, 4, 3, 3, [s0, s1, s2, s3, s4, s5, s6, s7, s8, s9]⟩ =
      some ⟨n % 1, 5, 4, 4,
        [s0, s1, s2, s3, (n / 1 + 0x30) % 4294967296 % 256, s5, s6, s7, s8, s9]⟩ :=
  convBody_of 1 _ _ _
    (convDigit_check ⟨n, 4, 3, 3, [s0, s1, s2, s3, s4, s5, s6, s7, s8, s9]⟩ 1
      Pow_ten.2.2.2 (by decide) (show 4 < 10 by decide))
    (convPoint_skip _ (show (3 : Nat) ≠ 2 by decide))


theorem convBody_star0 (n s0 s1 s2 s3 s4 s5 s6 s7 s8 s9 : Nat) :
    convBody 0 ⟨n, 0, 0, 0, [s0, s1, s2, s3, s4, s5, s6, s7, s8, s9]⟩ =
      some ⟨n, 1, 1, 1, [0x2A, s1, s2, s3, s4, s5, s6, s7, s8, s9]⟩ :=
  convBody_of 0 _ _ _
    (convDigit_star ⟨n, 0, 0, 0, [s0, s1, s2, s3, s4, s5, s6, s7, s8, s9]⟩ (Nat.succ_pos 9))
    (convPoint_skip _ (show (0 : Nat) ≠ 2 by decide))

theorem convBody_star1 (n s0 s1 s2 s3 s4 s5 s6 s7 s8 s9 : Nat) :
    convBody 0 ⟨n, 1, 1, 1, [s0, s1, s2, s3, s4, s5, s6, s7, s8, s9]⟩ =
      some ⟨n, 2, 2, 2, [s0, 0x2A, s2, s3, s4, s5, s6, s7, s8, s9]⟩ :=
  convBody_of 0 _ _ _
    (convDigit_star ⟨n, 1, 1, 1, [s0, s1, s2, s3, s4, s5, s6, s7, s8, s9]⟩
      (show 1 < 10 by decide))
    (convPoint_skip _ (show (1 : Nat) ≠ 2 by decide))

theorem convBody_star2 (n s0 s1 s2 s3 s4 s5 s6 s7 s8 s9 : Nat) :
    convBody 0 ⟨n, 2, 2, 2, [s0, s1, s2, s3, s4, s5, s6, s7, s8, s9]⟩ =
      some ⟨n, 4, 3, 3, [s0, s1, 0x2A, 0x2E, s4, s5, s6, s7, s8, s9]⟩ :=
  convBody_of 0 _ _ _
    (convDigit_star ⟨n, 2, 2, 2, [s0, s1, s2, s3, s4, s5, s6, s7, s8, s9]⟩
      (show 2 < 10 by decide))
    (convPoint_at _ (show (2 : Nat) = 2 from rfl) (show 3 < 10 by decide))

theorem convBody_star3 (n s0 s1 s2 s3 s4 s5 s6 s7 s8 s9 : Nat) :
    convBody 0 ⟨n, 4, 3, 3, [s0, s1, s2, s3, s4, s5, s6, s7, s8, s9]⟩ =
      some ⟨n, 5, 4, 4, [s0, s1, s2, s3, 0x2A, s5, s6, s7, s8, s9]⟩ :=
  convBody_of 0 _ _ _
    (convDigit_star ⟨n, 4, 3, 3, [s0, s1, s2, s3, s4, s5, s6, s7, s8, s9]⟩
      (show 4 < 10 by decide))
    (convPoint_skip _ (show (3 : Nat) ≠ 2 by decide))

/-- A pass of the loop whose body succeeds hands the new variables to the rest
of the loop. -/
theorem convLoop_step (check fuel : Nat) (st st1 : Conv) (hc : st.cnt ≤ 4)
    (hb : convBody check st = some st1) :
    convLoop check (fuel + 1) st = convLoop check fuel st1 := by
  rw [convLoop, if_pos hc, hb]

/-- The loop is left as soon as `cnt` exceeds 4. -/
theorem convLoop_exit (check fuel : Nat) (st : Conv) (hc : ¬ st.cnt ≤ 4) :
    convLoop check (fuel + 1) st = some st := by
  rw [convLoop, if_neg hc]

/-- With `check` set the loop takes four passes and leaves `cnt = 5`, the four
digits and the point in bytes 0..4 and bytes 5..9 untouched. -/
theorem convLoop_digits (f n s0 s1 s2 s3 s4 s5 s6 s7 s8 s9 : Nat) :
    convLoop 1 (f + 5) ⟨n, 0, 0, 0, [s0, s1, s2, s3, s4, s5, s6, s7, s8, s9]⟩ =
      some ⟨n % 1000 % 100 % 10 % 1, 5, 4, 4,
        [(n / 1000 + 0x30) % 4294967296 % 256,
          (n % 1000 / 100 + 0x30) % 4294967296 % 256,
          (n % 1000 % 100 / 10 + 0x30) % 4294967296 % 256, 0x2E,
          (n % 1000 % 100 % 10 / 1 + 0x30) % 4294967296 % 256, s5, s6, s7, s8, s9]⟩ :=
  (convLoop_step 1 (f + 4) _ _ (show (0 : Nat) ≤ 4 by decide) (convBody_pass0 n _ _ _ _ _ _ _ _ _ _)).trans
    ((convLoop_step 1 (f + 3) _ _ (show (1 : Nat) ≤ 4 by decide)
        (convBody_pass1 _ _ _ _ _ _ _ _ _ _ _)).trans
      ((convLoop_step 1 (f + 2) _ _ (show (2 : Nat) ≤ 4 by decide)
          (convBody_pass2 _ _ _ _ _ _ _ _ _ _ _)).trans
        ((convLoop_step 1 (f + 1) _ _ (show (4 : Nat) ≤ 4 by decide)
            (convBody_pass3 _ _ _ _ _ _ _ _ _ _ _)).trans
          (convLoop_exit 1 f _ (show ¬ (5 : Nat) ≤ 4 by decide)))))

/-- With `check` clear the loop takes four passes and leaves `cnt = 5`, four
stars and the point in bytes 0..4 and bytes 5..9 untouched. -/
theorem convLoop_stars (f n s0 s1 s2 s3 s4 s5 s6 s7 s8 s9 : Nat) :
    convLoop 0 (f + 5) ⟨n, 0, 0, 0, [s0, s1, s2, s3, s4, s5, s6, s7, s8, s9]⟩ =
      some ⟨n, 5, 4, 4, [0x2A, 0x2A, 0x2A, 0x2E, 0x2A, s5, s6, s7, s8, s9]⟩ :=
  (convLoop_step 0 (f + 4) _ _ (show (0 : Nat) ≤ 4 by decide) (convBody_star0 n _ _ _ _ _ _ _ _ _ _)).trans
    ((convLoop_step 0 (f + 3) _ _ (show (1 : Nat) ≤ 4 by decide)
        (convBody_star1 _ _ _ _ _ _ _ _ _ _ _)).trans
      ((convLoop_step 0 (f + 2) _ _ (show (2 : Nat) ≤ 4 by decide)
          (convBody_star2 _ _ _ _ _ _ _ _ _ _ _)).trans
        ((convLoop_step 0 (f + 1) _ _ (show (4 : Nat) ≤ 4 by decide)
            (convBody_star3 _ _ _ _ _ _ _ _ _ _ _)).trans
          (convLoop_exit 0 f _ (show ¬ (5 : Nat) ≤ 4 by decide)))))

/-- The routine is its loop followed by the four stores of the unit text. -/
theorem UART_ConvertAngle_of (fuel n check : Nat) (S : List Nat) (st : Conv)
    (S1 S2 S3 : List Nat) (hcheck : (if n < 10000 then 1 else 0) = check)
    (hl : convLoop check fuel ⟨n, 0, 0, 0, S⟩ = some st)
    (h1 : setString st.String st.cnt (Char.toNat ' ') = some S1)
    (h2 : setString S1 (ulong (st.cnt + 1)) (Char.toNat 'd') = some S2)
    (h3 : setString S2 (ulong (st.cnt + 2)) (Char.toNat 'e') = some S3) :
    UART_ConvertAngle fuel n S = setString S3 (ulong (st.cnt + 3)) (Char.toNat 'g') := by
  simp only [UART_ConvertAngle, hcheck, hl, h1, h2, h3]

/-- Below 10000 the stored bytes are the ASCII codes of the four decimal
digits; no truncation takes effect. -/
theorem digits_eq (n : Nat) (hn : n < 10000) :
    (n / 1000 + 0x30) % 4294967296 % 256 = 0x30 + n / 1000 % 10 ∧
      (n % 1000 / 100 + 0x30) % 4294967296 % 256 = 0x30 + n / 100 % 10 ∧
      (n % 1000 % 100 / 10 + 0x30) % 4294967296 % 256 = 0x30 + n / 10 % 10 ∧
      (n % 1000 % 100 % 10 / 1 + 0x30) % 4294967296 % 256 = 0x30 + n % 10 := by
  refine ⟨by omega, by omega, by omega, by omega⟩

/-- With fuel for five evaluations of the loop condition and a 10-byte array,
`UART_ConvertAngle` returns, and the array then holds the fixed format in
bytes 0..8 and its old byte 9. -/
theorem UART_ConvertAngle_eq (fuel n : Nat) (String : List Nat) (hfuel : 5 ≤ fuel)
    (hlen : String.length = 10) :
    UART_ConvertAngle fuel n String = some (fixedFormat n ++ String.drop 9) := by
  obtain ⟨f, rfl⟩ : ∃ f, fuel = f + 5 := ⟨fuel - 5, by omega⟩
  obtain ⟨s0, s1, s2, s3, s4, s5, s6, s7, s8, s9, rfl⟩ := length_ten String hlen
  by_cases hn : n < 10000
  · obtain ⟨d3, d2, d1, d0⟩ := digits_eq n hn
    rw [UART_ConvertAngle_of _ _ 1 _ _ _ _ _ (if_pos hn)
      (convLoop_digits f n s0 s1 s2 s3 s4 s5 s6 s7 s8 s9)
      (setString_at _ _ _ (show 5 < 10 by decide))
      (setString_at _ _ _ (show 6 < 10 by decide))
      (setString_at _ _ _ (show 7 < 10 by decide)),
      fixedFormat, if_pos hn, ← d3, ← d2, ← d1, ← d0]
    rfl
  · rw [UART_ConvertAngle_of _ _ 0 _ _ _ _ _ (if_neg hn)
      (convLoop_stars f n s0 s1 s2 s3 s4 s5 s6 s7 s8 s9)
      (setString_at _ _ _ (show 5 < 10 by decide))
      (setString_at _ _ _ (show 6 < 10 by decide))
      (setString_at _ _ _ (show 7 < 10 by decide)),
      fixedFormat, if_neg hn]
    rfl

/-! ## Claim on the fixed format -/

/-- C12: `UART_ConvertAngle` writes the documented fixed format. Run on a
10-byte array, with fuel for the five evaluations of the loop condition, the
routine returns; for `n < 10000` bytes 0..8 are the ASCII characters
d3 d2 d1 '.' d0 ' ' 'd' 'e' 'g' with d3 d2 d1 d0 the four decimal digits of
`n`, leading zeros kept; for `n > 9999` bytes 0..8 are the text of stars; in
both cases byte 9 is what it was before the call and no store falls outside
the array, so on the statically initialised array byte 9 stays 0. The values
4, 31, 102, 2210 and 10000 give the five texts of the header comment. -/
theorem C12_convert_angle_format (fuel n : Nat) (String : List Nat) (hfuel : 5 ≤ fuel)
    (hlen : String.length = 10) :
    (∃ S, UART_ConvertAngle fuel n String = some S ∧ S.length = 10 ∧
      (n < 10000 → S.take 9 =
        [0x30 + n / 1000 % 10, 0x30 + n / 100 % 10, 0x30 + n / 10 % 10, Char.toNat '.',
          0x30 + n % 10, Char.toNat ' ', Char.toNat 'd', Char.toNat 'e', Char.toNat 'g']) ∧
      (9999 < n → S.take 9 = ascii "***.* deg") ∧
      S[9]? = String[9]?) ∧
    UART_ConvertAngle fuel n StringInit = some (fixedFormat n ++ [0]) ∧
    UART_ConvertAngle fuel 4 StringInit = some (ascii "000.4 deg" ++ [0]) ∧
    UART_ConvertAngle fuel 31 StringInit = some (ascii "003.1 deg" ++ [0]) ∧
    UART_ConvertAngle fuel 102 StringInit = some (ascii "010.2 deg" ++ [0]) ∧
    UART_ConvertAngle fuel 2210 StringInit = some (ascii "221.0 deg" ++ [0]) ∧
    UART_ConvertAngle fuel 10000 StringInit = some (ascii "***.* deg" ++ [0]) := by
  refine ⟨?_, UART_ConvertAngle_eq fuel n StringInit hfuel rfl,
    (UART_ConvertAngle_eq fuel 4 StringInit hfuel rfl).trans (by decide),
    (UART_ConvertAngle_eq fuel 31 StringInit hfuel rfl).trans (by decide),
    (UART_ConvertAngle_eq fuel 102 StringInit hfuel rfl).trans (by decide),
    (UART_ConvertAngle_eq fuel 2210 StringInit hfuel rfl).trans (by decide),
    (UART_ConvertAngle_eq fuel 10000 StringInit hfuel rfl).trans (by decide)⟩
  refine ⟨_, UART_ConvertAngle_eq fuel n String hfuel hlen, ?_⟩
  obtain ⟨s0, s1, s2, s3, s4, s5, s6, s7, s8, s9, rfl⟩ := length_ten String hlen
  by_cases hn : n < 10000
  · rw [fixedFormat, if_pos hn]
    exact ⟨rfl, fun _ => rfl, fun h => absurd hn (by omega), rfl⟩
  · rw [fixedFormat, if_neg hn]
    exact ⟨rfl, fun h => absurd h hn, fun _ => rfl, rfl⟩

theorem C12_convert_angle_format_witness :
    (5 ≤ 5 ∧ StringInit.length = 10) ∧
      UART_ConvertAngle 5 2210 StringInit = some (ascii "221.0 deg" ++ [0]) ∧
      UART_ConvertAngle 5 10000 StringInit = some (ascii "***.* deg" ++ [0]) :=
  have h := C12_convert_angle_format 5 2210 StringInit (Nat.le_refl 5) rfl
  ⟨⟨Nat.le_refl 5, rfl⟩, h.2.2.2.2.2.1, h.2.2.2.2.2.2⟩

end MeasurementOfAngle
